import Mathlib

/-!
Shallow embedding of the dns-agent request-path core
(src/core/blocklist.py, src/core/cache.py, src/core/dns_server.py,
src/core/blocklist_updater.py) and proofs about the behaviour its
specification describes.

Domain names are modelled as lists of characters (`Name`); Python sets
are modelled as duplicate-free-by-insertion lists; `datetime.now()` is
modelled by an explicit time parameter (`Nat`); `OrderedDict` is
modelled as an association list whose head is the oldest
(least-recently-used) binding and whose last element is the newest
(most-recently-used) binding, matching the promotion discipline of
`move_to_end` / insertion at the end.
-/

namespace DnsAgent

/-- A domain name as a raw character sequence (Python `str`). -/
abbrev Name := List Char

/-- Python `str.lower` restricted to the ASCII range, as applied to
domain names throughout the code. -/
def lowerName (d : Name) : Name := d.map Char.toLower

/-- Python `str.rstrip` with a dot argument: remove every trailing
dot character (`domain.rstrip('.')` in the source). -/
def rstripDots (d : Name) : Name :=
  (d.reverse.dropWhile (fun c => c = '.')).reverse

/-- Normalisation applied by the matcher and the cache before every
lookup or store: `domain.lower().rstrip('.')`. -/
def normalizeName (d : Name) : Name := rstripDots (lowerName d)

/-- Python `s.endswith(t)`: `t` is a suffix of `s`. -/
def endsWithName (s t : Name) : Bool := decide (t <:+ s)

/-- State of `BlocklistManager` (src/core/blocklist.py): the four
domain sets.  Python sets are modelled as lists; insertion
(`set.add`) appends only when the element is absent, so list length
agrees with set cardinality.  The statistics dictionary does not
influence any matching decision and is kept separate. -/
structure MatcherState where
  blockedDomains : List Name
  wildcardDomains : List Name
  whitelistDomains : List Name
  whitelistWildcards : List Name
deriving DecidableEq

/-- Python `set.add` on the list model of a set. -/
def setInsert (s : List Name) (d : Name) : List Name :=
  if d ∈ s then s else s ++ [d]

/-- BlocklistManager._check_wildcard_match: scan the wildcard set; a
wildcard entry matches when the domain ends with it and additionally
the match sits on a label boundary (`domain == wildcard or
domain.endswith('.' + wildcard)`). -/
def checkWildcardMatch (domain : Name) (wildcardSet : List Name) : Bool :=
  wildcardSet.any fun w =>
    endsWithName domain w && (domain = w || endsWithName domain ('.' :: w))

/-- BlocklistManager._is_whitelisted: exact whitelist membership or a
whitelist wildcard match. -/
def isWhitelisted (st : MatcherState) (domain : Name) : Bool :=
  domain ∈ st.whitelistDomains || checkWildcardMatch domain st.whitelistWildcards

/-- BlocklistManager.is_blocked, the pure decision: normalise, check
the whitelist first, then the exact blocklist, then the wildcard
blocklist.  The counter updates performed by the method do not
influence the returned boolean and are omitted here. -/
def isBlocked (st : MatcherState) (domain : Name) : Bool :=
  let d := normalizeName domain
  if isWhitelisted st d then false
  else if d ∈ st.blockedDomains then true
  else if checkWildcardMatch d st.wildcardDomains then true
  else false

theorem endsWithName_iff (s t : Name) : endsWithName s t = true ↔ t <:+ s := by
  simp [endsWithName]

theorem checkWildcardMatch_iff (d : Name) (ws : List Name) :
    checkWildcardMatch d ws = true ↔ ∃ w ∈ ws, d = w ∨ ('.' :: w) <:+ d := by
  unfold checkWildcardMatch
  rw [List.any_eq_true]
  constructor
  · rintro ⟨w, hw, hb⟩
    refine ⟨w, hw, ?_⟩
    simp only [Bool.and_eq_true, Bool.or_eq_true, decide_eq_true_eq,
      endsWithName_iff] at hb
    rcases hb.2 with h | h
    · exact Or.inl h
    · exact Or.inr h
  · rintro ⟨w, hw, hcond⟩
    refine ⟨w, hw, ?_⟩
    simp only [Bool.and_eq_true, Bool.or_eq_true, decide_eq_true_eq,
      endsWithName_iff]
    constructor
    · rcases hcond with h | h
      · exact h ▸ List.suffix_refl w
      · exact (List.suffix_cons '.' w).trans h
    · rcases hcond with h | h
      · exact Or.inl h
      · exact Or.inr h

/-- One resource-record set of a DNS message section (dnspython
RRset): only the TTL is inspected by the code under proof; the record
data is kept opaque. -/
structure RRset where
  ttl : Nat
  rdata : String
deriving DecidableEq

/-- One entry of the question section: name and record type. -/
structure Question where
  qname : Name
  qtype : String
deriving DecidableEq

/-- A parsed DNS message (dnspython dns.message.Message) restricted to
the parts the code reads or writes: header id, flags, rcode, and the
four sections. -/
structure DnsMessage where
  id : Nat
  flags : Nat
  rcode : Nat
  question : List Question
  answer : List RRset
  authority : List RRset
  additional : List RRset
deriving DecidableEq

/-- Cache key: normalised domain paired with the query type string. -/
abbrev CacheKey := Name × String

/-- CacheEntry (src/core/cache.py): stored response plus the absolute
expiry instant (`created_at + timedelta(seconds=ttl)`).  Time is a
`Nat` number of seconds. -/
structure CacheEntry where
  response : DnsMessage
  expiresAt : Nat
deriving DecidableEq

/-- CacheEntry.is_expired at instant `now`:
`datetime.now() >= self.expires_at`. -/
def CacheEntry.isExpired (now : Nat) (e : CacheEntry) : Bool :=
  decide (now ≥ e.expiresAt)

/-- DNSCache state: the `OrderedDict` is an association list whose
head is the oldest (least recently used) binding; `move_to_end` and
fresh insertion place a binding at the end. -/
structure DNSCache where
  maxSize : Nat
  minTtl : Nat
  maxTtl : Nat
  entries : List (CacheKey × CacheEntry)
  hits : Nat
  misses : Nat
  evictions : Nat
  expirations : Nat
  stores : Nat
deriving DecidableEq

/-- Key lookup in the ordered association list (`key in self._cache`
followed by `self._cache[key]`). -/
def findEntry : List (CacheKey × CacheEntry) → CacheKey → Option CacheEntry
  | [], _ => none
  | (k, e) :: rest, k0 => if k = k0 then some e else findEntry rest k0

/-- Key deletion (`del self._cache[key]`); dictionary keys are unique,
so removing every binding of the key is the same operation. -/
def eraseKey (es : List (CacheKey × CacheEntry)) (k : CacheKey) :
    List (CacheKey × CacheEntry) :=
  es.filter fun p => decide (p.1 ≠ k)

/-- DNSCache.get at instant `now`: normalise the domain, miss when
absent, expire-and-miss when the entry's expiry has passed, otherwise
promote the binding to most-recently-used and return the response.
Returns the result together with the updated cache state. -/
def cacheGet (now : Nat) (c : DNSCache) (domain : Name) (qtype : String) :
    Option DnsMessage × DNSCache :=
  let k : CacheKey := (normalizeName domain, qtype)
  match findEntry c.entries k with
  | none => (none, { c with misses := c.misses + 1 })
  | some e =>
    if e.isExpired now then
      (none, { c with entries := eraseKey c.entries k,
                      expirations := c.expirations + 1,
                      misses := c.misses + 1 })
    else
      (some e.response, { c with entries := eraseKey c.entries k ++ [(k, e)],
                                 hits := c.hits + 1 })

/-- DNSCache._extract_ttl, inner loop: minimum TTL over the answer
RRsets, `none` when the answer section is empty. -/
def minAnswerTtl (r : DnsMessage) : Option Nat :=
  r.answer.foldl
    (fun acc rr =>
      match acc with
      | none => some rr.ttl
      | some m => if rr.ttl < m then some rr.ttl else acc)
    none

/-- DNSCache._extract_ttl: minimum answer TTL, defaulting to the
configured minimum when the response has no answers. -/
def extractTtl (c : DNSCache) (r : DnsMessage) : Nat :=
  (minAnswerTtl r).getD c.minTtl

/-- TTL clamping in DNSCache.store:
`ttl = max(self.min_ttl, min(ttl, self.max_ttl))`. -/
def clampTtl (c : DNSCache) (t : Nat) : Nat :=
  max c.minTtl (min t c.maxTtl)

/-- The association list after the insertion phase of DNSCache.store:
old binding removed, fresh entry appended at the most-recently-used
end (insertion plus `move_to_end`), before the overflow check runs. -/
def storeInsert (now : Nat) (c : DNSCache) (domain : Name) (qtype : String)
    (resp : DnsMessage) (ttlArg : Option Nat) : List (CacheKey × CacheEntry) :=
  let k : CacheKey := (normalizeName domain, qtype)
  let ttl := clampTtl c (ttlArg.getD (extractTtl c resp))
  eraseKey c.entries k ++ [(k, { response := resp, expiresAt := now + ttl })]

/-- DNSCache.store at instant `now`: insert (replacing any previous
binding for the key), then evict the head of the order — the least
recently used binding (`popitem(last=False)`) — when the size exceeds
`max_size`, and count the store. -/
def cacheStore (now : Nat) (c : DNSCache) (domain : Name) (qtype : String)
    (resp : DnsMessage) (ttlArg : Option Nat) : DNSCache :=
  let inserted := storeInsert now c domain qtype resp ttlArg
  if inserted.length > c.maxSize then
    { c with entries := inserted.drop 1,
             evictions := c.evictions + 1,
             stores := c.stores + 1 }
  else
    { c with entries := inserted, stores := c.stores + 1 }

/-- DNSCache.remove: delete the binding when present and report
whether a deletion happened. -/
def cacheRemove (c : DNSCache) (domain : Name) (qtype : String) :
    Bool × DNSCache :=
  let k : CacheKey := (normalizeName domain, qtype)
  match findEntry c.entries k with
  | some _ => (true, { c with entries := eraseKey c.entries k })
  | none => (false, c)

/-- DNSCache.clear: drop every binding. -/
def cacheClear (c : DNSCache) : DNSCache :=
  { c with entries := [] }

/-- DNSCache.cleanup_expired at instant `now`: remove every expired
binding, counting each removal as an expiration, and report the
number removed. -/
def cleanupExpired (now : Nat) (c : DNSCache) : DNSCache × Nat :=
  let removed := (c.entries.filter fun p => p.2.isExpired now).length
  ({ c with entries := c.entries.filter fun p => !p.2.isExpired now,
            expirations := c.expirations + removed },
   removed)

theorem length_eraseKey_le (es : List (CacheKey × CacheEntry)) (k : CacheKey) :
    (eraseKey es k).length ≤ es.length :=
  List.length_filter_le _ _

theorem findEntry_eraseKey (es : List (CacheKey × CacheEntry)) (k : CacheKey) :
    findEntry (eraseKey es k) k = none := by
  induction es with
  | nil => rfl
  | cons p rest ih =>
    by_cases hk : p.1 = k
    · simpa [eraseKey, List.filter, hk] using ih
    · simpa [eraseKey, List.filter, hk, findEntry] using ih

theorem length_eraseKey_lt (es : List (CacheKey × CacheEntry)) (k : CacheKey)
    (e : CacheEntry) (h : findEntry es k = some e) :
    (eraseKey es k).length < es.length := by
  induction es with
  | nil => simp [findEntry] at h
  | cons p rest ih =>
    by_cases hk : p.1 = k
    · have h1 : eraseKey (p :: rest) k = eraseKey rest k := by
        simp [eraseKey, List.filter_cons, hk]
      rw [h1]
      exact Nat.lt_succ_of_le (length_eraseKey_le rest k)
    · obtain ⟨k1, e1⟩ := p
      simp only at hk
      simp only [findEntry, if_neg hk] at h
      have := ih h
      simpa [eraseKey, List.filter, hk] using Nat.succ_lt_succ this

/-- dnspython dns.message.make_response as used by the server: the
response carries the query's header id and question section, empty
record sections, rcode NOERROR, and response flags (QR set, RD copied
from the query). -/
def makeResponse (q : DnsMessage) : DnsMessage :=
  { id := q.id
    flags := 0x8000 ||| (q.flags &&& 0x0100)
    rcode := 0
    question := q.question
    answer := []
    authority := []
    additional := [] }

/-- DNSServer._handle_cached, response synthesis: start from
`make_response(original_query)` and overwrite the answer, authority,
additional sections and the flags with those of the cached
response. -/
def handleCachedResponse (cached originalQuery : DnsMessage) : DnsMessage :=
  { makeResponse originalQuery with
      answer := cached.answer
      authority := cached.authority
      additional := cached.additional
      flags := cached.flags }

/-- DNSServer._handle_blocked reply: `make_response` with rcode set to
NXDOMAIN (3). -/
def nxdomainResponse (q : DnsMessage) : DnsMessage :=
  { makeResponse q with rcode := 3 }

/-- DNSServer._send_servfail reply: `make_response` with rcode set to
SERVFAIL (2). -/
def servfailResponse (q : DnsMessage) : DnsMessage :=
  { makeResponse q with rcode := 2 }

/-- The caching guard in DNSServer._handle_upstream, line 389:
`if self.cache and response.answer` — caching enabled and the answer
section non-empty (Python list truthiness).  No other condition is
tested before `self.cache.store` runs. -/
def shouldStoreUpstream (cacheEnabled : Bool) (r : DnsMessage) : Bool :=
  cacheEnabled && !r.answer.isEmpty

/-- One received UDP datagram as seen by DNSServer._handle_query:
either `dns.message.from_wire` raises (malformed) or it yields a
parsed message. -/
inductive Datagram where
  | malformed
  | parsed (msg : DnsMessage)
deriving DecidableEq

/-- Effect of one DNSServer._handle_query call: the statistics
increments it performs and the reply it sends (if any).  Logging and
database writes are omitted; they influence no counter and no
reply. -/
structure QueryDeltas where
  total : Nat
  failed : Nat
  blocked : Nat
  cached : Nat
  allowed : Nat
  upstreamCount : Nat
  touchedLastQueryTime : Bool
  reply : Option DnsMessage
deriving DecidableEq

/-- DNSServer._handle_query control flow.  The collaborators are
passed as oracles: `isBlockedF` for `self.blocklist.is_blocked`,
`cacheEnabled`/`cacheLookup` for `self.cache` and `self.cache.get`,
and `upstreamReply` for the outcome of `dns.query.udp` (`none` means
timeout or failure, which the code answers with SERVFAIL).  The code
increments `total_queries` and touches `last_query_time` first, before
parsing; a message with an empty question list returns with no reply
and no further counter change; otherwise only `question[0]` is
consulted. -/
def handleQuery (isBlockedF : Name → Bool) (cacheEnabled : Bool)
    (cacheLookup : Name → String → Option DnsMessage)
    (upstreamReply : Option DnsMessage) (d : Datagram) : QueryDeltas :=
  match d with
  | .malformed =>
      { total := 1, failed := 1, blocked := 0, cached := 0, allowed := 0,
        upstreamCount := 0, touchedLastQueryTime := true, reply := none }
  | .parsed q =>
    match q.question with
    | [] =>
        { total := 1, failed := 0, blocked := 0, cached := 0, allowed := 0,
          upstreamCount := 0, touchedLastQueryTime := true, reply := none }
    | q0 :: _ =>
      if isBlockedF q0.qname then
        { total := 1, failed := 0, blocked := 1, cached := 0, allowed := 0,
          upstreamCount := 0, touchedLastQueryTime := true,
          reply := some (nxdomainResponse q) }
      else
        match (if cacheEnabled then cacheLookup q0.qname q0.qtype else none) with
        | some cachedResp =>
            { total := 1, failed := 0, blocked := 0, cached := 1, allowed := 1,
              upstreamCount := 0, touchedLastQueryTime := true,
              reply := some (handleCachedResponse cachedResp q) }
        | none =>
          match upstreamReply with
          | some r =>
              { total := 1, failed := 0, blocked := 0, cached := 0, allowed := 1,
                upstreamCount := 1, touchedLastQueryTime := true,
                reply := some r }
          | none =>
              { total := 1, failed := 1, blocked := 0, cached := 0, allowed := 0,
                upstreamCount := 1, touchedLastQueryTime := true,
                reply := some (servfailResponse q) }

/-- A filesystem operation performed by the merger's write phase. -/
inductive FsOp where
  | openWrite (path : String)
  | writeLine (line : String)
  | closeFile
  | rename (src dst : String)
deriving DecidableEq

/-- Whether an operation is a rename. -/
def isRenameOp : FsOp → Bool
  | .rename _ _ => true
  | _ => false

/-- Write phase of BlocklistUpdater.merge_blocklists (the try block at
lines 263-302): `open(output_path, 'w')` is called on the final
artifact path `output_dir / output_file` directly; the header lines
are written when `include_comments` is set, then one line per domain;
the with-block closes the file.  The function performs no other
filesystem operation on the artifact — in particular it creates no
temporary file and calls no rename. -/
def mergeWriteOps (outputDir outputFile : String) (includeComments : Bool)
    (headerLines : List String) (sortedDomains : List String) : List FsOp :=
  let outputPath := outputDir ++ "/" ++ outputFile
  (FsOp.openWrite outputPath ::
      ((if includeComments then headerLines.map FsOp.writeLine else []) ++
        sortedDomains.map FsOp.writeLine)) ++
    [FsOp.closeFile]

/-- Python whitespace as recognised by `str.strip()` and `str.split()`
on ASCII input. -/
def isPyWs (c : Char) : Bool :=
  c = ' ' || c = '\t' || c = '\n' || c = '\x0b' || c = '\x0c' || c = '\r'

/-- Python `line.strip()`. -/
def stripWs (l : List Char) : List Char :=
  ((l.dropWhile isPyWs).reverse.dropWhile isPyWs).reverse

/-- Python `s.startswith(t)`. -/
def startsWithName (s t : Name) : Bool := decide (t <+: s)

/-- Worker for `str.split()` with no argument: split on whitespace
runs, discarding empty fields. -/
def splitWsAux : List Char → List Char → List (List Char)
  | [], acc => if acc.isEmpty then [] else [acc.reverse]
  | c :: cs, acc =>
    if isPyWs c then
      if acc.isEmpty then splitWsAux cs [] else acc.reverse :: splitWsAux cs []
    else splitWsAux cs (c :: acc)

/-- Python `line.split()`. -/
def splitWs (l : List Char) : List (List Char) := splitWsAux l []

/-- Character class `[a-z0-9]` of the domain-validation regex. -/
def isAlnumLower (c : Char) : Bool :=
  ('a' ≤ c && c ≤ 'z') || ('0' ≤ c && c ≤ '9')

/-- Character class `[a-z0-9-]` of the domain-validation regex. -/
def isLdhChar (c : Char) : Bool :=
  isAlnumLower c || c = '-'

/-- One label of the regex in BlocklistManager._is_valid_domain:
`[a-z0-9](?:[a-z0-9-]{0,61}[a-z0-9])?` — length 1 to 63, first and
last characters alphanumeric, interior characters alphanumeric or
hyphen. -/
def isValidLabel (l : List Char) : Bool :=
  match l, l.getLast? with
  | c :: _, some d =>
      isAlnumLower c && isAlnumLower d && l.all isLdhChar &&
        decide (l.length ≤ 63)
  | _, _ => false

/-- BlocklistManager._is_valid_domain: reject the empty string, strip
a leading wildcard marker, then apply the anchored regex
`(?:LABEL\.)*LABEL`, read label-wise: the dot-separated fields are
all valid labels (an empty field, as produced by a leading, trailing
or doubled dot, is invalid). -/
def isValidDomain (domain : Name) : Bool :=
  if domain.isEmpty then false
  else
    let checkDomain :=
      if startsWithName domain ['*', '.'] then domain.drop 2 else domain
    (checkDomain.splitOn '.').all isValidLabel

/-- BlocklistManager._parse_domain_line: strip whitespace, skip blank
and comment lines, unwrap the hosts-file format (second
whitespace-separated token of a line starting with `0.0.0.0` or
`127.0.0.1`), lower-case, strip trailing dots, and validate. -/
def parseDomainLine (line : List Char) : Option Name :=
  let l := stripWs line
  if l.isEmpty then none
  else if startsWithName l ['#'] || startsWithName l ['/', '/'] then none
  else
    let l2 :=
      if startsWithName l "0.0.0.0".toList ||
          startsWithName l "127.0.0.1".toList then
        match splitWs l with
        | _ :: second :: _ => second
        | _ => l
      else l
    let d := rstripDots (lowerName l2)
    if isValidDomain d then some d else none

/-- Per-line action of BlocklistManager._load_blocklist: a parsed
wildcard entry `*.w` goes (as `w`) into the wildcard set, any other
parsed domain into the exact set. -/
def blockStep (st : MatcherState) (line : List Char) : MatcherState :=
  match parseDomainLine line with
  | none => st
  | some d =>
    if startsWithName d ['*', '.'] then
      { st with wildcardDomains := setInsert st.wildcardDomains (d.drop 2) }
    else
      { st with blockedDomains := setInsert st.blockedDomains d }

/-- Per-line action of BlocklistManager._load_whitelist, analogous. -/
def allowStep (st : MatcherState) (line : List Char) : MatcherState :=
  match parseDomainLine line with
  | none => st
  | some d =>
    if startsWithName d ['*', '.'] then
      { st with whitelistWildcards := setInsert st.whitelistWildcards (d.drop 2) }
    else
      { st with whitelistDomains := setInsert st.whitelistDomains d }

/-- Outcome of opening and iterating one list file: `missing` — the
path does not exist (the loader returns 0 untouched); `ok lines` —
every line is read; `ioError pre` — an I/O error is raised after the
lines in `pre` were already processed (the except clause logs and
returns 0, keeping whatever was already added to the sets). -/
inductive FileRead where
  | missing
  | ok (lines : List (List Char))
  | ioError (pre : List (List Char))
deriving DecidableEq

/-- BlocklistManager._load_blocklist over a file-read outcome: fold
the per-line action; a normal read reports the resulting set sizes,
a missing file or an I/O error reports 0. -/
def loadBlocklistFile (st : MatcherState) (fr : FileRead) : MatcherState × Nat :=
  match fr with
  | .missing => (st, 0)
  | .ok lines =>
    let st1 := lines.foldl blockStep st
    (st1, st1.blockedDomains.length + st1.wildcardDomains.length)
  | .ioError pre => (pre.foldl blockStep st, 0)

/-- BlocklistManager._load_whitelist over a file-read outcome. -/
def loadWhitelistFile (st : MatcherState) (fr : FileRead) : MatcherState × Nat :=
  match fr with
  | .missing => (st, 0)
  | .ok lines =>
    let st1 := lines.foldl allowStep st
    (st1, st1.whitelistDomains.length + st1.whitelistWildcards.length)
  | .ioError pre => (pre.foldl allowStep st, 0)

/-- BlocklistManager.load: clear all four sets, then load the
blocklist, then the whitelist; return the two reported counts.  The
stats-dictionary updates have no influence on matching and are
omitted. -/
def loadMatcher (st : MatcherState) (bfr wfr : FileRead) :
    MatcherState × Nat × Nat :=
  let st0 : MatcherState :=
    { st with blockedDomains := [], wildcardDomains := [],
              whitelistDomains := [], whitelistWildcards := [] }
  let p1 := loadBlocklistFile st0 bfr
  let p2 := loadWhitelistFile p1.1 wfr
  (p2.1, p1.2, p2.2)

theorem cacheGet_case_miss (now : Nat) (c : DNSCache) (d : Name) (q : String)
    (h : findEntry c.entries (normalizeName d, q) = none) :
    cacheGet now c d q = (none, { c with misses := c.misses + 1 }) := by
  simp [cacheGet, h]

theorem cacheGet_case_expired (now : Nat) (c : DNSCache) (d : Name) (q : String)
    (e : CacheEntry) (hf : findEntry c.entries (normalizeName d, q) = some e)
    (he : e.isExpired now = true) :
    cacheGet now c d q =
      (none, { c with entries := eraseKey c.entries (normalizeName d, q),
                      expirations := c.expirations + 1,
                      misses := c.misses + 1 }) := by
  simp [cacheGet, hf, he]

theorem cacheGet_case_live (now : Nat) (c : DNSCache) (d : Name) (q : String)
    (e : CacheEntry) (hf : findEntry c.entries (normalizeName d, q) = some e)
    (he : e.isExpired now = false) :
    cacheGet now c d q =
      (some e.response,
       { c with entries := eraseKey c.entries (normalizeName d, q) ++
                             [((normalizeName d, q), e)],
                hits := c.hits + 1 }) := by
  simp [cacheGet, hf, he]

/-- C5: the cache's get never returns an expired entry — whenever it
returns a response at time `now`, the entry it came from satisfies
`now < expiresAt`; and a get that meets an expired entry removes it
and reports a miss (returns `none`). -/
theorem cacheGet_never_returns_expired (now : Nat) (c : DNSCache) (d : Name)
    (q : String) :
    (∀ r, (cacheGet now c d q).1 = some r →
      ∃ e, findEntry c.entries (normalizeName d, q) = some e ∧
        now < e.expiresAt ∧ r = e.response)
    ∧ (∀ e, findEntry c.entries (normalizeName d, q) = some e →
        e.expiresAt ≤ now →
        (cacheGet now c d q).1 = none ∧
        findEntry (cacheGet now c d q).2.entries (normalizeName d, q) = none) := by
  constructor
  · intro r hr
    cases hf : findEntry c.entries (normalizeName d, q) with
    | none => rw [cacheGet_case_miss now c d q hf] at hr; simp at hr
    | some e =>
      by_cases he : e.isExpired now
      · rw [cacheGet_case_expired now c d q e hf he] at hr
        simp at hr
      · rw [cacheGet_case_live now c d q e hf
          (Bool.not_eq_true _ ▸ eq_false_of_ne_true he)] at hr
        refine ⟨e, rfl, ?_, by simpa using hr.symm⟩
        have he2 : ¬ (now ≥ e.expiresAt) := by
          simpa [CacheEntry.isExpired] using he
        exact Nat.lt_of_not_le he2
  · intro e hf hle
    have he : e.isExpired now = true := by
      simp [CacheEntry.isExpired]
      exact hle
    rw [cacheGet_case_expired now c d q e hf he]
    exact ⟨rfl, findEntry_eraseKey c.entries (normalizeName d, q)⟩

/-- C5 witness: a concrete one-entry cache queried at time 7; the
entry expires at 100, so the stored response is returned, and the
theorem's conclusion exhibits it as coming from an unexpired entry. -/
theorem cacheGet_never_returns_expired_witness :
    ∃ e, findEntry
        [(((['a', '.', 'c', 'o', 'm'] : Name), "A"),
          (⟨⟨5, 0, 0, [], [], [], []⟩, 100⟩ : CacheEntry))]
        (normalizeName ['a', '.', 'c', 'o', 'm'], "A") = some e ∧
      7 < e.expiresAt ∧ (⟨5, 0, 0, [], [], [], []⟩ : DnsMessage) = e.response :=
  (cacheGet_never_returns_expired 7
    ⟨10, 60, 86400,
      [((['a', '.', 'c', 'o', 'm'], "A"), ⟨⟨5, 0, 0, [], [], [], []⟩, 100⟩)],
      0, 0, 0, 0, 0⟩
    ['a', '.', 'c', 'o', 'm'] "A").1 ⟨5, 0, 0, [], [], [], []⟩ (by decide)

/-- C10: every DNSCache.get call increments exactly one of the hits
and misses counters (so their sum rises by exactly one per call), and
a get that finds an expired entry additionally counts an expiration,
deletes the entry, and returns none. -/
theorem cacheGet_counter_discipline (now : Nat) (c : DNSCache) (d : Name)
    (q : String) :
    (((cacheGet now c d q).2.hits = c.hits + 1 ∧
        (cacheGet now c d q).2.misses = c.misses) ∨
      ((cacheGet now c d q).2.hits = c.hits ∧
        (cacheGet now c d q).2.misses = c.misses + 1))
    ∧ (cacheGet now c d q).2.hits + (cacheGet now c d q).2.misses
        = c.hits + c.misses + 1
    ∧ (∀ e, findEntry c.entries (normalizeName d, q) = some e →
        e.expiresAt ≤ now →
        (cacheGet now c d q).2.expirations = c.expirations + 1
        ∧ (cacheGet now c d q).1 = none
        ∧ findEntry (cacheGet now c d q).2.entries (normalizeName d, q) = none) := by
  have hmain : ((cacheGet now c d q).2.hits = c.hits + 1 ∧
        (cacheGet now c d q).2.misses = c.misses) ∨
      ((cacheGet now c d q).2.hits = c.hits ∧
        (cacheGet now c d q).2.misses = c.misses + 1) := by
    cases hf : findEntry c.entries (normalizeName d, q) with
    | none => rw [cacheGet_case_miss now c d q hf]; right; exact ⟨rfl, rfl⟩
    | some e =>
      by_cases he : e.isExpired now
      · rw [cacheGet_case_expired now c d q e hf he]
        right; exact ⟨rfl, rfl⟩
      · rw [cacheGet_case_live now c d q e hf
          (Bool.not_eq_true _ ▸ eq_false_of_ne_true he)]
        left; exact ⟨rfl, rfl⟩
  refine ⟨hmain, ?_, ?_⟩
  · rcases hmain with ⟨h1, h2⟩ | ⟨h1, h2⟩ <;> rw [h1, h2] <;> omega
  · intro e hf hle
    have he : e.isExpired now = true := by
      simp [CacheEntry.isExpired]
      exact hle
    rw [cacheGet_case_expired now c d q e hf he]
    exact ⟨rfl, rfl, findEntry_eraseKey c.entries (normalizeName d, q)⟩

/-- C10 witness: a concrete cache whose single entry expired at time
5, queried at time 7: exactly one of hits and misses rises (here
misses), the expiration is counted, the entry is removed, and the
result is a miss. -/
theorem cacheGet_counter_discipline_witness :
    ((cacheGet 7
        ⟨10, 60, 86400,
          [((['a', '.', 'c', 'o', 'm'], "A"), ⟨⟨5, 0, 0, [], [], [], []⟩, 5⟩)],
          0, 0, 0, 0, 0⟩
        ['a', '.', 'c', 'o', 'm'] "A").2.expirations = 0 + 1)
    ∧ ((cacheGet 7
        ⟨10, 60, 86400,
          [((['a', '.', 'c', 'o', 'm'], "A"), ⟨⟨5, 0, 0, [], [], [], []⟩, 5⟩)],
          0, 0, 0, 0, 0⟩
        ['a', '.', 'c', 'o', 'm'] "A").1 = none) :=
  ⟨((cacheGet_counter_discipline 7
      ⟨10, 60, 86400,
        [((['a', '.', 'c', 'o', 'm'], "A"), ⟨⟨5, 0, 0, [], [], [], []⟩, 5⟩)],
        0, 0, 0, 0, 0⟩
      ['a', '.', 'c', 'o', 'm'] "A").2.2 ⟨⟨5, 0, 0, [], [], [], []⟩, 5⟩
      (by decide) (by decide)).1,
   ((cacheGet_counter_discipline 7
      ⟨10, 60, 86400,
        [((['a', '.', 'c', 'o', 'm'], "A"), ⟨⟨5, 0, 0, [], [], [], []⟩, 5⟩)],
        0, 0, 0, 0, 0⟩
      ['a', '.', 'c', 'o', 'm'] "A").2.2 ⟨⟨5, 0, 0, [], [], [], []⟩, 5⟩
      (by decide) (by decide)).2.1⟩

theorem storeInsert_length_le (now : Nat) (c : DNSCache) (d : Name) (q : String)
    (r : DnsMessage) (t : Option Nat) :
    (storeInsert now c d q r t).length ≤ c.entries.length + 1 := by
  unfold storeInsert
  rw [List.length_append]
  simpa using length_eraseKey_le c.entries (normalizeName d, q)

/-- C6: every cache operation preserves the size bound: starting from
a state with at most maxSize entries, get, store, remove, clear and
the expiry sweep all return a state with at most maxSize entries; and
when a store overflows the bound, the evicted binding is the head of
the recency order — the least-recently-used entry (get and store both
place touched bindings at the end of the order). -/
theorem cache_ops_size_bound (now : Nat) (c : DNSCache) (d : Name) (q : String)
    (r : DnsMessage) (t : Option Nat) (h : c.entries.length ≤ c.maxSize) :
    (cacheStore now c d q r t).entries.length ≤ (cacheStore now c d q r t).maxSize
    ∧ (cacheGet now c d q).2.entries.length ≤ (cacheGet now c d q).2.maxSize
    ∧ (cacheRemove c d q).2.entries.length ≤ (cacheRemove c d q).2.maxSize
    ∧ (cacheClear c).entries.length ≤ (cacheClear c).maxSize
    ∧ (cleanupExpired now c).1.entries.length ≤ (cleanupExpired now c).1.maxSize
    ∧ ((storeInsert now c d q r t).length > c.maxSize →
        (cacheStore now c d q r t).entries = (storeInsert now c d q r t).drop 1) := by
  have hins := storeInsert_length_le now c d q r t
  refine ⟨?_, ?_, ?_, ?_, ?_, ?_⟩
  · unfold cacheStore
    by_cases hov : (storeInsert now c d q r t).length > c.maxSize
    · simp only [hov, if_pos]
      rw [List.length_drop]
      omega
    · simp only [hov, if_neg, not_false_eq_true]
      omega
  · cases hf : findEntry c.entries (normalizeName d, q) with
    | none => rw [cacheGet_case_miss now c d q hf]; exact h
    | some e =>
      by_cases he : e.isExpired now
      · rw [cacheGet_case_expired now c d q e hf he]
        exact le_trans (length_eraseKey_le c.entries (normalizeName d, q)) h
      · rw [cacheGet_case_live now c d q e hf
          (Bool.not_eq_true _ ▸ eq_false_of_ne_true he)]
        have hlt := length_eraseKey_lt c.entries (normalizeName d, q) e hf
        simp only [List.length_append, List.length_cons, List.length_nil]
        omega
  · cases hf : findEntry c.entries (normalizeName d, q) with
    | none => simp only [cacheRemove, hf]; exact h
    | some e =>
      simp only [cacheRemove, hf]
      exact le_trans (length_eraseKey_le c.entries (normalizeName d, q)) h
  · simp [cacheClear]
  · unfold cleanupExpired
    exact le_trans (List.length_filter_le _ c.entries) h
  · intro hov
    unfold cacheStore
    simp only [hov, if_pos]

/-- C6 witness: a concrete cache at its capacity of one entry; a
store of a second key still returns at most one entry (the LRU
binding was evicted). -/
theorem cache_ops_size_bound_witness :
    ([(((['o', 'l', 'd', '.', 'c', 'o', 'm'] : Name), ("A" : String)),
        (⟨⟨9, 0, 0, [], [], [], []⟩, 100⟩ : CacheEntry))].length ≤ 1)
    ∧ (cacheStore 0
        ⟨1, 60, 86400,
          [((['o', 'l', 'd', '.', 'c', 'o', 'm'], "A"),
            ⟨⟨9, 0, 0, [], [], [], []⟩, 100⟩)],
          0, 0, 0, 0, 0⟩
        ['n', 'e', 'w', '.', 'c', 'o', 'm'] "A"
        ⟨3, 0, 0, [], [⟨120, "ip"⟩], [], []⟩ none).entries.length ≤ 1 :=
  ⟨by decide,
   (cache_ops_size_bound 0
     ⟨1, 60, 86400,
       [((['o', 'l', 'd', '.', 'c', 'o', 'm'], "A"),
         ⟨⟨9, 0, 0, [], [], [], []⟩, 100⟩)],
       0, 0, 0, 0, 0⟩
     ['n', 'e', 'w', '.', 'c', 'o', 'm'] "A"
     ⟨3, 0, 0, [], [⟨120, "ip"⟩], [], []⟩ none (by decide)).1⟩

/-- C2: a wildcard entry `w` matches a name `n` exactly when `n = w`
or `n` ends with the string dot-`w` — a label boundary is required, so
a name that merely shares a string suffix never matches; in
particular, evilfacebook.com does not match the wildcard entry
facebook.com. -/
theorem wildcard_matching_label_boundary (d : Name) (ws : List Name) :
    (checkWildcardMatch d ws = true ↔ ∃ w ∈ ws, d = w ∨ ('.' :: w) <:+ d)
    ∧ checkWildcardMatch "evilfacebook.com".toList ["facebook.com".toList]
        = false :=
  ⟨checkWildcardMatch_iff d ws, by decide⟩

/-- C3: whatever the contents of the exact and wildcard blocklist
sets, a name whose normalised form matches an allow rule (exact
whitelist entry or whitelist wildcard) is never blocked. -/
theorem whitelist_overrides_blocklist (be bw wl ww : List Name) (d : Name)
    (h : isWhitelisted ⟨be, bw, wl, ww⟩ (normalizeName d) = true) :
    isBlocked ⟨be, bw, wl, ww⟩ d = false := by
  simp [isBlocked, h]

/-- C3 witness: mail.google.com is exactly whitelisted while both an
exact block entry for it and a block wildcard covering google.com are
present; the query (in mixed case with a trailing dot) is still
allowed. -/
theorem whitelist_overrides_blocklist_witness :
    isWhitelisted
        ⟨["mail.google.com".toList], ["google.com".toList],
          ["mail.google.com".toList], []⟩
        (normalizeName "Mail.Google.com.".toList) = true
    ∧ isBlocked
        ⟨["mail.google.com".toList], ["google.com".toList],
          ["mail.google.com".toList], []⟩
        "Mail.Google.com.".toList = false :=
  ⟨by decide,
   whitelist_overrides_blocklist ["mail.google.com".toList]
     ["google.com".toList] ["mail.google.com".toList] []
     "Mail.Google.com.".toList (by decide)⟩

/-- C1: on a cache hit the synthesized reply carries the incoming
query's transaction id and question section, while the answer,
authority and additional sections and the flags all come from the
cached response; whenever the cached id differs from the query id,
the reply id is not the cached one. -/
theorem cached_hit_uses_query_id (cached q : DnsMessage) :
    (handleCachedResponse cached q).id = q.id
    ∧ (handleCachedResponse cached q).question = q.question
    ∧ (handleCachedResponse cached q).answer = cached.answer
    ∧ (handleCachedResponse cached q).authority = cached.authority
    ∧ (handleCachedResponse cached q).additional = cached.additional
    ∧ (handleCachedResponse cached q).flags = cached.flags
    ∧ (cached.id ≠ q.id → (handleCachedResponse cached q).id ≠ cached.id) := by
  refine ⟨rfl, rfl, rfl, rfl, rfl, rfl, ?_⟩
  intro hne hh
  exact hne hh.symm

/-- C1 witness: a cached response with id 0x1234 answering a fresh
query with id 0x9ABC: the synthesized reply does not carry the cached
id. -/
theorem cached_hit_uses_query_id_witness :
    (0x1234 : Nat) ≠ 0x9ABC
    ∧ (handleCachedResponse
        ⟨0x1234, 0x8180, 0, [⟨"example.org".toList, "A"⟩],
          [⟨3600, "93.184.216.34"⟩], [], []⟩
        ⟨0x9ABC, 0x0100, 0, [⟨"example.org".toList, "A"⟩], [], [], []⟩).id
        ≠ 0x1234 :=
  ⟨by decide,
   (cached_hit_uses_query_id
     ⟨0x1234, 0x8180, 0, [⟨"example.org".toList, "A"⟩],
       [⟨3600, "93.184.216.34"⟩], [], []⟩
     ⟨0x9ABC, 0x0100, 0, [⟨"example.org".toList, "A"⟩], [], [], []⟩).2.2.2.2.2.2
     (by decide)⟩

/-- C4 counterexample: the claim requires that a reply is stored only
when its rcode is NOERROR (0); but the caching guard at
dns_server.py line 389 tests only the answer section, so a reply with
rcode NXDOMAIN (3) and a non-empty answer section passes the guard
and is stored. -/
theorem upstream_store_rcode_counterexample :
    ¬ (∀ r : DnsMessage, shouldStoreUpstream true r = true → r.rcode = 0) := by
  intro hall
  exact absurd
    (hall ⟨1, 0x8183, 3, [⟨"a.example".toList, "A"⟩], [⟨60, "cname"⟩], [], []⟩
      rfl)
    (by decide)

/-- C4 amended: an upstream reply is stored in the cache exactly when
caching is enabled and its answer section is non-empty; the rcode is
not consulted.  In particular a reply with an empty answer section is
never stored through the upstream path. -/
theorem upstream_store_guard (ce : Bool) (r : DnsMessage) :
    (shouldStoreUpstream ce r = true ↔ ce = true ∧ r.answer ≠ [])
    ∧ (r.answer = [] → shouldStoreUpstream ce r = false) := by
  constructor
  · cases hra : r.answer with
    | nil => cases ce <;> simp [shouldStoreUpstream, hra]
    | cons a tl => cases ce <;> simp [shouldStoreUpstream, hra]
  · intro hra
    cases ce <;> simp [shouldStoreUpstream, hra]

/-- C4 witness: with caching enabled, a concrete reply with an empty
answer section is not stored. -/
theorem upstream_store_guard_witness :
    shouldStoreUpstream true ⟨7, 0x8180, 0, [], [], [], []⟩ = false :=
  (upstream_store_guard true ⟨7, 0x8180, 0, [], [], [], []⟩).2 rfl

/-- C7 counterexample: the claim says an I/O failure during load
retains the previously loaded matcher state; but load clears all four
sets before reading, so after a blocklist read that fails immediately
(with the whitelist file absent) a previously loaded exact block
entry a.com is gone. -/
theorem load_failure_counterexample :
    (loadMatcher ⟨["a.com".toList], [], [], []⟩ (.ioError []) .missing).1
      ≠ ⟨["a.com".toList], [], [], []⟩ := by
  decide

/-- C7 amended: load clears all four sets before reading, so its
result never depends on the previous matcher state — on an I/O error
the previous snapshot is not retained, the resulting sets hold only
the entries parsed before the failure, and the loader reports a count
of 0 for the failed list (its only failure signal, indistinguishable
from an empty file). -/
theorem load_failure_clears_state (st st1 : MatcherState) (bfr wfr : FileRead)
    (pre : List (List Char)) :
    loadMatcher st bfr wfr = loadMatcher st1 bfr wfr
    ∧ (loadMatcher st (.ioError pre) wfr).2.1 = 0 := by
  constructor
  · rfl
  · simp [loadMatcher, loadBlocklistFile]

/-- C8 counterexample: a well-formed datagram whose message carries
zero questions (so it fails the claim's exactly-one-question
requirement): the handler leaves failed at 0 (the claim requires an
increment), already counted the datagram in total (the claim allows
total only after the question check passes), and sends no reply. -/
theorem handle_query_counterexample :
    (handleQuery (fun _ => false) true (fun _ _ => none) none
        (.parsed ⟨1, 0, 0, [], [], [], []⟩)).failed = 0
    ∧ (handleQuery (fun _ => false) true (fun _ _ => none) none
        (.parsed ⟨1, 0, 0, [], [], [], []⟩)).total = 1
    ∧ ¬ ((handleQuery (fun _ => false) true (fun _ _ => none) none
        (.parsed ⟨1, 0, 0, [], [], [], []⟩)).failed = 1
          ∧ (handleQuery (fun _ => false) true (fun _ _ => none) none
        (.parsed ⟨1, 0, 0, [], [], [], []⟩)).total = 0) := by
  refine ⟨rfl, rfl, ?_⟩
  rintro ⟨h1, -⟩
  simp [handleQuery] at h1

/-- C8 amended: the handler counts every received datagram in total
and touches lastQueryTime before parsing; a malformed datagram then
increments failed and gets no reply; a datagram with zero questions
gets no reply and leaves failed unchanged; and a datagram with more
than one question is not rejected — blocking, caching, allowed and
failed accounting and the decision to reply all agree with handling
the same message restricted to its first question. -/
theorem handle_query_amended (isB : Name → Bool) (ce : Bool)
    (cl : Name → String → Option DnsMessage) (ur : Option DnsMessage)
    (dgram : Datagram) (q : DnsMessage) (q0 : Question) (qs : List Question)
    (hq : q.question = q0 :: qs) :
    (handleQuery isB ce cl ur dgram).total = 1
    ∧ (handleQuery isB ce cl ur dgram).touchedLastQueryTime = true
    ∧ (handleQuery isB ce cl ur .malformed).failed = 1
    ∧ (handleQuery isB ce cl ur .malformed).reply = none
    ∧ (∀ q1 : DnsMessage, q1.question = [] →
        (handleQuery isB ce cl ur (.parsed q1)).failed = 0
        ∧ (handleQuery isB ce cl ur (.parsed q1)).reply = none)
    ∧ ((handleQuery isB ce cl ur (.parsed q)).blocked
          = (handleQuery isB ce cl ur (.parsed { q with question := [q0] })).blocked
        ∧ (handleQuery isB ce cl ur (.parsed q)).cached
          = (handleQuery isB ce cl ur (.parsed { q with question := [q0] })).cached
        ∧ (handleQuery isB ce cl ur (.parsed q)).allowed
          = (handleQuery isB ce cl ur (.parsed { q with question := [q0] })).allowed
        ∧ (handleQuery isB ce cl ur (.parsed q)).failed
          = (handleQuery isB ce cl ur (.parsed { q with question := [q0] })).failed
        ∧ (handleQuery isB ce cl ur (.parsed q)).reply.isSome
          = (handleQuery isB ce cl ur (.parsed { q with question := [q0] })).reply.isSome) := by
  refine ⟨?_, ?_, rfl, rfl, ?_, ?_⟩
  · cases dgram with
    | malformed => rfl
    | parsed m =>
      cases hm : m.question with
      | nil => simp [handleQuery, hm]
      | cons m0 ms =>
        by_cases hb : isB m0.qname
        · simp [handleQuery, hm, hb]
        · simp only [handleQuery, hm, hb, Bool.false_eq_true, if_false]
          cases hcc : (if ce then cl m0.qname m0.qtype else none) with
          | some cc => simp
          | none => cases ur <;> simp
  · cases dgram with
    | malformed => rfl
    | parsed m =>
      cases hm : m.question with
      | nil => simp [handleQuery, hm]
      | cons m0 ms =>
        by_cases hb : isB m0.qname
        · simp [handleQuery, hm, hb]
        · simp only [handleQuery, hm, hb, Bool.false_eq_true, if_false]
          cases hcc : (if ce then cl m0.qname m0.qtype else none) with
          | some cc => simp
          | none => cases ur <;> simp
  · intro q1 hq1
    simp [handleQuery, hq1]
  · simp only [handleQuery, hq]
    by_cases hb : isB q0.qname
    · simp [hb]
    · simp only [hb, Bool.false_eq_true, if_false]
      cases hcc : (if ce then cl q0.qname q0.qtype else none) with
      | some cc => simp
      | none => cases ur <;> simp

/-- C8 witness: a concrete two-question datagram handled with no
block rule, an empty cache and no upstream answer is still counted
exactly once in total. -/
theorem handle_query_amended_witness :
    (handleQuery (fun _ => false) true (fun _ _ => none) none
        (.parsed ⟨1, 0, 0, [⟨"a.com".toList, "A"⟩, ⟨"b.com".toList, "A"⟩],
          [], [], []⟩)).total = 1 :=
  (handle_query_amended (fun _ => false) true (fun _ _ => none) none
    (.parsed ⟨1, 0, 0, [⟨"a.com".toList, "A"⟩, ⟨"b.com".toList, "A"⟩],
      [], [], []⟩)
    ⟨1, 0, 0, [⟨"a.com".toList, "A"⟩, ⟨"b.com".toList, "A"⟩], [], [], []⟩
    ⟨"a.com".toList, "A"⟩ [⟨"b.com".toList, "A"⟩] rfl).1

/-- C9 counterexample: the claim says every successful merge writes
the artifact to a temporary path and renames it into place; but the
write phase for a concrete merge opens the final artifact path
directly as its first filesystem operation and performs no rename at
all. -/
theorem merge_write_counterexample :
    (mergeWriteOps "config" "blocklists.txt" true ["# DNS Agent Blocklist"]
        ["ads.example.com"]).head?
      = some (FsOp.openWrite "config/blocklists.txt")
    ∧ (mergeWriteOps "config" "blocklists.txt" true ["# DNS Agent Blocklist"]
        ["ads.example.com"]).any isRenameOp = false := by
  exact ⟨by decide, by decide⟩

/-- C9 amended: a successful merge writes the artifact directly to
the final path — its first filesystem operation opens
outputDir/outputFile for writing, and no rename operation occurs
anywhere in the write phase. -/
theorem merge_write_direct (outputDir outputFile : String) (ic : Bool)
    (hs ds : List String) :
    (mergeWriteOps outputDir outputFile ic hs ds).head?
      = some (FsOp.openWrite (outputDir ++ "/" ++ outputFile))
    ∧ (mergeWriteOps outputDir outputFile ic hs ds).any isRenameOp = false := by
  constructor
  · simp [mergeWriteOps]
  · cases ic <;>
      simp [mergeWriteOps, isRenameOp, List.any_map, Function.comp]

end DnsAgent
